import Mathlib

/-!
Verification of the training orchestrator and prediction data loader of
the face_analysis_pytorch repository.  Python code from `src/train.py` and
`src/data/data_loader_predict.py` is shallowly embedded: tensors become
lists of rationals, Python float infinities become an explicit extended
score type, and Python attribute/name errors become `Except.error`.
-/

namespace FaceAnalysis

/-- The run's metric directionality, `config.max_or_min` in `train.py`. -/
inductive MaxOrMin where
  | max
  | min
deriving DecidableEq, Repr

/-- A best-score cell.  `run` initialises `best_acc = float('Inf')` and
negates it when `max_or_min == 'max'`, so the value is either an infinity
or a finite float; finite floats are embedded as rationals. -/
inductive BestScore where
  | neginf
  | fin (q : ℚ)
  | inf
deriving DecidableEq, Repr

/-- `train.py` lines 102-105: `best_step = 0`, `best_acc = float('Inf')`,
negated when the directionality is `max`. -/
def initBest (m : MaxOrMin) : BestScore :=
  match m with
  | .max => .neginf
  | .min => .inf

/-- `val_acc > best_acc` on Python floats, with `best_acc` possibly
an infinity. -/
def gtBest (val : ℚ) (best : BestScore) : Bool :=
  match best with
  | .neginf => true
  | .fin b => decide (val > b)
  | .inf => false

/-- `val_acc < best_acc` on Python floats, with `best_acc` possibly
an infinity. -/
def ltBest (val : ℚ) (best : BestScore) : Bool :=
  match best with
  | .neginf => false
  | .fin b => decide (val < b)
  | .inf => true

/-- The guard of `save_model` (`train.py` lines 158-159):
`(max_or_min == 'max' and val_acc > best_acc) or
 (max_or_min == 'min' and val_acc < best_acc)`. -/
def improves (m : MaxOrMin) (val : ℚ) (best : BestScore) : Bool :=
  match m with
  | .max => gtBest val best
  | .min => ltBest val best

/-- Result of one `save_model` call: the returned `best_acc` and
`best_step`, plus whether `save_state` was invoked. -/
structure SaveResult where
  best_acc : BestScore
  best_step : ℕ
  saved : Bool
deriving DecidableEq, Repr

/-- `train.py` lines 157-164: update `best_acc`/`best_step` and call
`save_state` exactly when the new score improves on the best so far
under the configured directionality. -/
def save_model (m : MaxOrMin) (val_acc : ℚ) (best_acc : BestScore)
    (step : ℕ) (best_step : ℕ) : SaveResult :=
  if improves m val_acc best_acc then
    { best_acc := .fin val_acc, best_step := step, saved := true }
  else
    { best_acc := best_acc, best_step := best_step, saved := false }

/-- Folding `save_model` over a sequence of validation scores observed at
steps 1, 2, …, starting from the initial best state, and recording for
each evaluation whether a checkpoint was written.  This is the sequence of
`save_model` calls the orchestrator makes at successive evaluation
points. -/
def runEvaluationsFrom (m : MaxOrMin) (best : BestScore) (best_step step : ℕ) :
    List ℚ → BestScore × ℕ × List Bool
  | [] => (best, best_step, [])
  | s :: rest =>
    let r := save_model m s best step best_step
    let t := runEvaluationsFrom m r.best_acc r.best_step (step + 1) rest
    (t.1, t.2.1, r.saved :: t.2.2)

def runEvaluations (m : MaxOrMin) (scores : List ℚ) :
    BestScore × ℕ × List Bool :=
  runEvaluationsFrom m (initBest m) 0 1 scores

/-! ## Rounding

Python's `round` (used in `evaluate_attribute` as `round(x, 4)`) and
NumPy's `np.round(x, 0)` both round half to even.  Floats are embedded as
rationals, so rounding is exact decimal round-half-even. -/

/-- Round a rational to the nearest integer, ties to even: the rule of
Python `round` and NumPy `np.round`. -/
def roundHalfEven (q : ℚ) : ℤ :=
  if q - ⌊q⌋ < 1/2 then ⌊q⌋
  else if 1/2 < q - ⌊q⌋ then ⌊q⌋ + 1
  else if ⌊q⌋ % 2 = 0 then ⌊q⌋ else ⌊q⌋ + 1

/-- Python `round(x, 4)`: round half to even at the fourth decimal. -/
def round4 (q : ℚ) : ℚ :=
  (roundHalfEven (q * 10000) : ℚ) / 10000

/-! ## Metric Evaluator (`evaluate_attribute`, `train.py` lines 199-236)

Validation outputs are a list of rows (one row of logits / bin scores per
sample); labels are class indices for the classification attributes and
label vectors for age. -/

/-- The index returned by `torch.max(all_outputs, 1)` for one row: the
first index attaining the row's maximum. -/
def argmaxIdx (row : List ℚ) : ℕ :=
  let rec go (i : ℕ) (bestIdx : ℕ) (bestVal : ℚ) : List ℚ → ℕ
    | [] => bestIdx
    | x :: rest =>
      if bestVal < x then go (i + 1) i x rest
      else go (i + 1) bestIdx bestVal rest
  match row with
  | [] => 0
  | x :: rest => go 1 0 x rest

/-- `np.sum(y_true == y_pred)`: the number of positions where the two
sequences agree. -/
def countEq (xs ys : List ℕ) : ℕ :=
  (List.zip xs ys).countP (fun p => p.1 == p.2)

/-- `train.py` lines 230-234 (the `gender`/`race` branch of
`evaluate_attribute`): take the argmax of every output row, count
agreements with the ground-truth labels, divide by the number of
predictions and round to 4 decimals. -/
def evaluateClassification (all_outputs : List (List ℚ)) (y_true : List ℕ) : ℚ :=
  let y_pred := all_outputs.map argmaxIdx
  round4 ((countEq y_true y_pred : ℚ) / (y_pred.length : ℚ))

/-- `sklearn.metrics.mean_absolute_error`: mean of `|t - p|` over paired
samples. -/
def mean_absolute_error (ts ps : List ℚ) : ℚ :=
  ((List.zip ts ps).map (fun p => |p.1 - p.2|)).sum / (ts.length : ℚ)

/-- `train.py` lines 224-229 (the `age` branch of `evaluate_attribute`):
round every prediction entry to the nearest integer (`np.round(y_pred, 0)`,
half to even), sum each row, sum each ground-truth row, and report the
mean absolute error of the two scalar sequences rounded to 4 decimals. -/
def evaluateAge (all_outputs : List (List ℚ)) (y_true : List (List ℚ)) : ℚ :=
  let y_pred := all_outputs.map (fun row => (row.map (fun x => ((roundHalfEven x : ℤ) : ℚ))).sum)
  let t := y_true.map List.sum
  round4 (mean_absolute_error t y_pred)

/-- The formula of the spec for classification accuracy, written from the
spec's words: `count(argmax(pred)==label)/total`, rounded to 4 decimal
places. -/
def specClassificationScore (outputs : List (List ℚ)) (labels : List ℕ) : ℚ :=
  round4 (((List.zip labels (outputs.map argmaxIdx)).countP
    (fun p => p.1 == p.2) : ℚ) / (outputs.length : ℚ))

/-- The formula of the spec for the age score, written from the spec's
words: `mean(|sum(round(pred)) - sum(label)|)` rounded to 4 decimals. -/
def specAgeScore (outputs : List (List ℚ)) (labels : List (List ℚ)) : ℚ :=
  round4 (((List.zip outputs labels).map
      (fun p => |(p.2.sum : ℚ) - (p.1.map (fun x => ((roundHalfEven x : ℤ) : ℚ))).sum|)).sum
    / (outputs.length : ℚ))

/-! ## The evaluation loop over validation batches (`train.py` 206-220)

One validation batch carries the head's outputs for its images and the
batch's labels.  The loop concatenates labels into `y_true` and outputs
into `all_outputs`; after the loop the loss is computed from the loop
variables `outputs`/`labels`, which still hold the *last* batch. -/

structure ValBatch (L : Type) where
  outputs : List (List ℚ)
  labels : List L
deriving Repr

/-- The accumulation loop of `evaluate_attribute`: `y_true` and
`all_outputs` after concatenating every batch, in order. -/
def accumulateBatches {L : Type} (batches : List (ValBatch L)) :
    List L × List (List ℚ) :=
  ((batches.map ValBatch.labels).flatten, (batches.map ValBatch.outputs).flatten)

/-- `evaluate_attribute`'s loss-and-score skeleton (`train.py` 206-236)
for a non-recognition attribute, abstracting the score over the
accumulated data as `scoreFn` and the loss function as `lossFn`.
After the batch loop the last batch's `outputs`/`labels` are still bound,
and the reported loss is `round(lossFn(outputs, labels), 4)` for that
batch alone; an empty validation stream leaves `outputs` unbound, a
Python `NameError`. -/
def evaluateAttributePass {L : Type}
    (scoreFn : List (List ℚ) → List L → ℚ)
    (lossFn : List (List ℚ) → List L → ℚ)
    (batches : List (ValBatch L)) : Except String (ℚ × ℚ) :=
  match batches.getLast? with
  | none => .error "NameError: name outputs is not defined"
  | some last =>
    let acc := accumulateBatches batches
    let loss := round4 (lossFn last.outputs last.labels)
    .ok (scoreFn acc.2 acc.1, loss)

/-! ## Learning-rate handling at end of epoch (`train.py` 88-90, 143-146, 166-168) -/

/-- The slice of `RunConfig` that the end-of-epoch branch reads. -/
structure LrConfig where
  reduce_lr : List ℕ
  lr_plateau : Bool
deriving Repr

/-- The `ReduceLROnPlateau` scheduler as constructed in `__init__`
(lines 89-90), recording its configured constants. -/
structure Scheduler where
  mode : MaxOrMin
  factor : ℚ
  patience : ℕ
  threshold : ℚ
  cooldown : ℕ
deriving Repr

/-- `__init__` lines 88-90: `self.scheduler` is assigned only when
`config.lr_plateau` is truthy; otherwise the attribute never exists. -/
def mkScheduler (cfg : LrConfig) (m : MaxOrMin) : Option Scheduler :=
  if cfg.lr_plateau then
    some { mode := m, factor := 1/10, patience := 3, threshold := 1/1000, cooldown := 1 }
  else none

/-- `reduce_lr` (`train.py` 166-168): divide the learning rate of every
optimizer parameter group by 10. -/
def reduce_lr (lrs : List ℚ) : List ℚ :=
  lrs.map (fun lr => lr / 10)

/-- `run` lines 143-146, the end-of-epoch branch: when the epoch index is
in `config.reduce_lr` and plateau reduction is off, call `reduce_lr`;
otherwise call `self.scheduler.step(val_acc)` — an attribute access that
raises `AttributeError` whenever the scheduler was never created.
Returns the parameter-group learning rates after the branch. -/
def endOfEpochLr (cfg : LrConfig) (sched : Option Scheduler) (epoch : ℕ)
    (lrs : List ℚ) (val_acc : ℚ) : Except String (List ℚ) :=
  if epoch ∈ cfg.reduce_lr ∧ ¬cfg.lr_plateau then
    .ok (reduce_lr lrs)
  else
    match sched with
    | some _ =>
      -- scheduler.step(val_acc) mutates only the scheduler's internal
      -- plateau state unless a reduction fires; the branch itself succeeds.
      let _ := val_acc
      .ok lrs
    | none => .error "AttributeError: Train object has no attribute scheduler"

/-! ## Head selection at construction (`train.py` 27-33) -/

/-- The dispatch dictionary built at `__init__` line 27: a *local*
variable `ATTR_HEAD`, mapping attribute names to head constructors
(represented by their names). -/
def ATTR_HEAD : List (String × String) :=
  [("race", "RaceHead"), ("gender", "GenderHead"),
   ("age", "AgeHead"), ("recognition", "config.recognition_head")]

/-- The instance attributes assigned on `self` before line 33 executes:
`self.config` (line 23), `self.writer` (line 30), `self.model` (line 32).
The dictionary of line 27 is bound to the local name `ATTR_HEAD`, not to
`self`. -/
def trainSelfAttrsAtLine33 : List String :=
  ["config", "writer", "model"]

/-- `__init__` line 33: `self.head = self.ATTR_HEAD[self.config.attribute]()`.
Python first resolves the attribute access `self.ATTR_HEAD`, then indexes
the dictionary (a missing key raises `KeyError`). -/
def initHead (attr : String) : Except String String :=
  if trainSelfAttrsAtLine33.contains "ATTR_HEAD" then
    match ATTR_HEAD.lookup attr with
    | some head => .ok head
    | none => .error ("KeyError: " ++ attr)
  else
    .error "AttributeError: Train object has no attribute ATTR_HEAD"

/-! ## Recognition evaluation (`train.py` 178-195, 238-255) -/

/-- `evaluate_recognition` (lines 238-255): embed the samples, delegate to
the external pairwise `evaluate`, and return `(accuracy.mean(), 0)` where
`accuracy` holds one verification accuracy per cross-validation fold.
The fold accuracies are the abstract input here. -/
def evaluate_recognition (foldAccuracies : List ℚ) : ℚ × ℚ :=
  (foldAccuracies.sum / (foldAccuracies.length : ℚ), 0)

/-- Python local-name resolution: reading a name that was never bound in
the enclosing scope raises `NameError`. -/
def localLookup (locals : List (String × ℚ)) (name : String) : Except String ℚ :=
  match locals.lookup name with
  | some v => .ok v
  | none => .error ("NameError: name " ++ name ++ " is not defined")

/-- The `recognition` branch of `evaluate` (`train.py` 183-195).  Line 185
binds `agedb_30_accuracy`; line 186 then calls
`self.tensorboard_val(accuracy, step, dataset='agedb_30_')`, reading the
local name `accuracy`, which no line of `evaluate` ever binds.  The later
lines (logging `accuracy` twice more, averaging into `val_acc`, and
`return self.evaluate_recognition()` with its two required arguments
missing) are kept for faithfulness but are unreachable. -/
def evaluateRecognitionBranch (agedbFolds lfwFolds cfpFolds : List ℚ) :
    Except String ℚ := do
  let agedb_30_accuracy := (evaluate_recognition agedbFolds).1
  let _ ← localLookup [("agedb_30_accuracy", agedb_30_accuracy)] "accuracy"
  let lfw_accuracy := (evaluate_recognition lfwFolds).1
  let _ ← localLookup
    [("agedb_30_accuracy", agedb_30_accuracy), ("lfw_accuracy", lfw_accuracy)] "accuracy"
  let cfp_fp_accuracy := (evaluate_recognition cfpFolds).1
  let locals := [("agedb_30_accuracy", agedb_30_accuracy),
                 ("lfw_accuracy", lfw_accuracy), ("cfp_fp_accuracy", cfp_fp_accuracy)]
  let _ ← localLookup locals "accuracy"
  let val_acc := (agedb_30_accuracy + lfw_accuracy + cfp_fp_accuracy) / 3
  let _ ← localLookup (("val_acc", val_acc) :: locals) "accuracy"
  .error "TypeError: evaluate_recognition missing 2 required positional arguments"

/-! ## The training loop's step counter (`train.py` 94-141) -/

/-- The mutable loop state owned by `run`: the global step counter and,
for the purpose of the step-counter invariant, the number of
`optimizer.step()` calls performed so far, together with the best-score
bookkeeping that the evaluation branch mutates. -/
structure LoopState where
  step : ℕ
  optimizerUpdates : ℕ
  best_acc : BestScore
  best_step : ℕ
  val_acc : ℚ
deriving Repr

/-- The state at the top of `run` (`train.py` 97-105). -/
def initLoopState (m : MaxOrMin) : LoopState :=
  { step := 0, optimizerUpdates := 0, best_acc := initBest m,
    best_step := 0, val_acc := 0 }

/-- One iteration of the inner batch loop (`train.py` 109-141):
zero gradients, forward, loss, backward (external), `optimizer.step()`
(line 126), the cadenced evaluation/checkpoint branch (lines 133-137,
which performs no optimizer update), and finally `step += 1` (line 139).
The validation score observed when evaluating at step `s` is abstracted
as `score s`. -/
def trainBatch (m : MaxOrMin) (evaluate_every : ℕ) (score : ℕ → ℚ)
    (s : LoopState) : LoopState :=
  let s1 := { s with optimizerUpdates := s.optimizerUpdates + 1 }
  let s2 :=
    if s1.step % evaluate_every == 0 && s1.step != 0 then
      let v := score s1.step
      let r := save_model m v s1.best_acc s1.step s1.best_step
      { s1 with best_acc := r.best_acc, best_step := r.best_step, val_acc := v }
    else s1
  { s2 with step := s2.step + 1 }

/-- One epoch: fold the batch body over the epoch's batch count.  The
step counter is not touched between batches. -/
def runEpoch (m : MaxOrMin) (evaluate_every : ℕ) (score : ℕ → ℚ)
    (s : LoopState) : ℕ → LoopState
  | 0 => s
  | n + 1 => trainBatch m evaluate_every score (runEpoch m evaluate_every score s n)

/-- The epoch loop of `run` (`train.py` 107-151): the step counter is
never reset between epochs. -/
def runEpochs (m : MaxOrMin) (evaluate_every : ℕ) (score : ℕ → ℚ)
    (batchCounts : List ℕ) : LoopState :=
  batchCounts.foldl (runEpoch m evaluate_every score) (initLoopState m)

/-! ## Prediction data loader (`src/data/data_loader_predict.py`)

Image decoding and the torchvision transform pipeline are external; they
are abstracted as functions over abstract image and tensor types, while
the transform's configured constants are recorded explicitly. -/

/-- The constants of the `transforms.Compose` pipeline built in
`ImageList.__init__` (lines 17-21): resize target, per-channel
normalization mean and std. -/
structure TransformSpec where
  resize : ℕ × ℕ
  mean : List ℚ
  std : List ℚ
deriving DecidableEq, Repr

/-- The transform of `ImageList`: resize to 112x112, to-tensor, then
normalize with mean `[0.5, 0.5, 0.5]` and std `[0.5, 0.5, 0.5]`. -/
def imageListTransform : TransformSpec :=
  { resize := (112, 112), mean := [1/2, 1/2, 1/2], std := [1/2, 1/2, 1/2] }

/-- `os.path.join(source, name)`. -/
def pathJoin (source name : String) : String :=
  source ++ "/" ++ name

/-- The `ImageList` dataset: `samples` is the list of joined paths built
in `__init__` line 15 from column 0 of the image-list file, one entry per
row, in file order.  `rows` below is that column of the parsed file. -/
structure ImageList where
  samples : List String
deriving Repr

/-- `ImageList.__init__` (lines 11-21): read the image-list file, take
column 0 of each row, and join each name onto `source`. -/
def mkImageList (source : String) (rows : List String) : ImageList :=
  { samples := rows.map (pathJoin source) }

/-- `ImageList.__len__` (lines 23-24). -/
def imageListLen (d : ImageList) : ℕ :=
  d.samples.length

/-- `ImageList.__getitem__` (lines 26-29): open the image at `samples[index]`
as RGB and return the transformed image — nothing else, no label.
`openRGB` abstracts `Image.open(...).convert('RGB')` and `applyT`
abstracts running the transform pipeline. -/
def imageListGetItem {Img Tensor : Type} (openRGB : String → Img)
    (applyT : TransformSpec → Img → Tensor) (d : ImageList) (index : ℕ) :
    Option Tensor :=
  (d.samples.get? index).map (fun p => applyT imageListTransform (openRGB p))

/-- Split a sequence into consecutive batches of size `b`, keeping a final
partial batch: how a non-shuffling `DataLoader` with `drop_last=False`
batches its dataset's indices. -/
def chunkList {α : Type} (b : ℕ) (xs : List α) : List (List α) :=
  match xs with
  | [] => []
  | x :: rest =>
    if hb : b = 0 then [x :: rest]
    else
      have : ((x :: rest).drop b).length < (x :: rest).length := by
        rw [List.length_drop]
        simp only [List.length_cons]
        omega
      (x :: rest).take b :: chunkList b ((x :: rest).drop b)
termination_by xs.length

/-- The batches produced by iterating `PredictionDataLoader`
(`data_loader_predict.py` lines 32-38): the underlying `ImageList`'s
items, in dataset order (`shuffle=False`), grouped into batches of
`batch_size` with the final partial batch kept (`drop_last=False`). -/
def predictionLoaderBatches {Img Tensor : Type} (batch_size : ℕ)
    (openRGB : String → Img) (applyT : TransformSpec → Img → Tensor)
    (d : ImageList) : List (List Tensor) :=
  chunkList batch_size
    (d.samples.map (fun p => applyT imageListTransform (openRGB p)))

/-! ## Helper lemmas -/

theorem floor_le_roundHalfEven (q : ℚ) : ⌊q⌋ ≤ roundHalfEven q := by
  unfold roundHalfEven
  split_ifs <;> omega

theorem roundHalfEven_le_ceil (q : ℚ) : roundHalfEven q ≤ ⌈q⌉ := by
  have hfc : ⌊q⌋ ≤ ⌈q⌉ := Int.floor_le_ceil q
  have hstep : (⌊q⌋ : ℚ) < q → ⌊q⌋ + 1 ≤ ⌈q⌉ := by
    intro hlt
    have h2 : q ≤ (⌈q⌉ : ℚ) := Int.le_ceil q
    have h3 : (⌊q⌋ : ℚ) < (⌈q⌉ : ℚ) := lt_of_lt_of_le hlt h2
    have h4 : ⌊q⌋ < ⌈q⌉ := by exact_mod_cast h3
    omega
  unfold roundHalfEven
  split_ifs with h1 h2 h3
  · exact hfc
  · exact hstep (by linarith)
  · exact hfc
  · push_neg at h1 h2
    exact hstep (by linarith)

theorem roundHalfEven_nonneg (q : ℚ) (h : 0 ≤ q) : 0 ≤ roundHalfEven q := by
  have h1 : (0 : ℤ) ≤ ⌊q⌋ := Int.floor_nonneg.mpr h
  exact le_trans h1 (floor_le_roundHalfEven q)

theorem roundHalfEven_le_int (q : ℚ) (n : ℤ) (h : q ≤ n) : roundHalfEven q ≤ n := by
  have h1 : ⌈q⌉ ≤ n := Int.ceil_le.mpr (by exact_mod_cast h)
  exact le_trans (roundHalfEven_le_ceil q) h1

theorem round4_nonneg (q : ℚ) (h : 0 ≤ q) : 0 ≤ round4 q := by
  unfold round4
  have h1 : (0 : ℤ) ≤ roundHalfEven (q * 10000) := roundHalfEven_nonneg _ (by positivity)
  have h2 : (0 : ℚ) ≤ (roundHalfEven (q * 10000) : ℚ) := by exact_mod_cast h1
  positivity

theorem round4_le_one (q : ℚ) (h : q ≤ 1) : round4 q ≤ 1 := by
  unfold round4
  have h1 : roundHalfEven (q * 10000) ≤ (10000 : ℤ) :=
    roundHalfEven_le_int _ _ (by push_cast; linarith)
  have h2 : (roundHalfEven (q * 10000) : ℚ) ≤ 10000 := by exact_mod_cast h1
  linarith

/-! ## Claim theorems -/

/-- C1: `save_model` persists a checkpoint exactly when the new validation
score improves on the best score so far — strictly greater under `max`,
strictly less under `min` — updating best score and best step exactly on
those improvements; on the score sequence `[0.5, 0.6, 0.55]` under `max`,
checkpoints are written at evaluations 1 and 2 and not at 3, with the
best score ending at 0.6 achieved at the second evaluation. -/
theorem save_model_checkpoints_exactly_on_improvement :
    (∀ (m : MaxOrMin) (val : ℚ) (best : BestScore) (step bstep : ℕ),
      ((save_model m val best step bstep).saved = true ↔ improves m val best = true) ∧
      (improves m val best = true →
        (save_model m val best step bstep).best_acc = .fin val ∧
        (save_model m val best step bstep).best_step = step) ∧
      (improves m val best = false →
        (save_model m val best step bstep).best_acc = best ∧
        (save_model m val best step bstep).best_step = bstep)) ∧
    (∀ (val b : ℚ),
      improves .max val (.fin b) = decide (b < val) ∧
      improves .min val (.fin b) = decide (val < b)) ∧
    runEvaluations .max [1/2, 3/5, 11/20]
      = (.fin (3/5), 2, [true, true, false]) := by
  refine ⟨?_, ?_,
    by norm_num [runEvaluations, runEvaluationsFrom, save_model, improves,
      gtBest, ltBest, initBest]⟩
  · intro m val best step bstep
    refine ⟨?_, ?_, ?_⟩
    · unfold save_model
      split <;> simp_all
    · intro himp
      unfold save_model
      simp [himp]
    · intro himp
      unfold save_model
      simp [himp]
  · intro val b
    exact ⟨rfl, rfl⟩

/-- C1 witness: under `max` directionality, the score 0.6 improves on a
best of 0.5, and `save_model` accordingly updates the best score and best
step at that evaluation. -/
theorem save_model_checkpoints_exactly_on_improvement_witness :
    improves .max (3/5) (.fin (1/2)) = true ∧
    ((save_model .max (3/5) (.fin (1/2)) 7 1).best_acc = .fin (3/5) ∧
     (save_model .max (3/5) (.fin (1/2)) 7 1).best_step = 7) := by
  have himp : improves .max (3/5) (.fin (1/2)) = true := by
    norm_num [improves, gtBest]
  exact ⟨himp,
    (save_model_checkpoints_exactly_on_improvement.1 .max (3/5) (.fin (1/2)) 7 1).2.1 himp⟩

/-- C9: the best score is initialised to negative infinity under `max`
directionality and positive infinity under `min`, so the first
`save_model` call writes a checkpoint for every finite first validation
score, regardless of its quality. -/
theorem first_evaluation_always_saves :
    initBest .max = .neginf ∧ initBest .min = .inf ∧
    (∀ (m : MaxOrMin) (q : ℚ) (step bstep : ℕ),
      (save_model m q (initBest m) step bstep).saved = true ∧
      (save_model m q (initBest m) step bstep).best_acc = .fin q ∧
      (save_model m q (initBest m) step bstep).best_step = step) := by
  refine ⟨rfl, rfl, ?_⟩
  intro m q step bstep
  cases m <;> simp [save_model, improves, initBest, gtBest, ltBest]

/-- C2: the claim that the end-of-epoch branch always completes — dividing
every parameter-group learning rate by 10 when the epoch is in the fixed
list and plateau reduction is off, and otherwise invoking the scheduler
without error — fails on the code: `self.scheduler` is only assigned when
`lr_plateau` is set, so a plateau-disabled run whose epoch index is not in
the fixed-reduction list hits an `AttributeError`.  At the failing
configuration (`lr_plateau = false`, `reduce_lr = [1]`), epoch 0 errors
while epoch 1 divides the learning rates by 10. -/
theorem endOfEpoch_plateau_disabled_raises :
    endOfEpochLr { reduce_lr := [1], lr_plateau := false }
        (mkScheduler { reduce_lr := [1], lr_plateau := false } .max) 0 [1/10, 1/10, 1/10] (1/2)
      = .error "AttributeError: Train object has no attribute scheduler" ∧
    endOfEpochLr { reduce_lr := [1], lr_plateau := false }
        (mkScheduler { reduce_lr := [1], lr_plateau := false } .max) 1 [1/10, 1/10, 1/10] (1/2)
      = .ok [1/100, 1/100, 1/100] ∧
    mkScheduler { reduce_lr := [1], lr_plateau := false } .max = none := by
  refine ⟨rfl, ?_, rfl⟩
  show Except.ok ([1/10, 1/10, 1/10].map (fun lr => lr / (10:ℚ))) = _
  norm_num

/-- C3: the claim that one recognition evaluation pass logs each
per-dataset accuracy and returns the three-dataset average fails on the
code: the first logging call reads the never-bound local name `accuracy`,
so the branch raises `NameError` for every input.  The per-dataset
quantity that line 185 does compute is the mean verification accuracy
across the cross-validation folds, as shown on the fold accuracies
`[4/5, 9/10]`. -/
theorem evaluateRecognitionBranch_raises_nameError :
    (∀ (agedbFolds lfwFolds cfpFolds : List ℚ),
      evaluateRecognitionBranch agedbFolds lfwFolds cfpFolds
        = .error "NameError: name accuracy is not defined") ∧
    (evaluate_recognition [4/5, 9/10]).1 = 17/20 := by
  constructor
  · intro a l c
    rfl
  · norm_num [evaluate_recognition]

/-- C4: the claim that construction succeeds for the four known attribute
selectors and fails only for unknown ones fails on the code: line 33 reads
`self.ATTR_HEAD`, but the dispatch dictionary was bound to the *local*
name `ATTR_HEAD` (line 27), so head selection raises `AttributeError` for
every selector, valid ones included — here shown for `gender`. -/
theorem initHead_raises_for_every_selector :
    initHead "gender" = .error "AttributeError: Train object has no attribute ATTR_HEAD" ∧
    (∀ attr : String,
      initHead attr = .error "AttributeError: Train object has no attribute ATTR_HEAD") ∧
    ATTR_HEAD.lookup "gender" = some "GenderHead" := by
  exact ⟨rfl, fun _ => rfl, rfl⟩

theorem zip_map_abs_sum {α β : Type} (g1 : α → ℚ) (g2 : β → ℚ) :
    ∀ (xs : List α) (ys : List β),
      ((List.zip (xs.map g1) (ys.map g2)).map (fun p => |p.1 - p.2|)).sum
        = ((List.zip ys xs).map (fun p => |g1 p.2 - g2 p.1|)).sum := by
  intro xs
  induction xs with
  | nil =>
    intro ys
    cases ys <;> simp
  | cons x xs ih =>
    intro ys
    cases ys with
    | nil => simp
    | cons y ys => simp [ih]

/-- C5: for the classification attributes the returned score is the
fraction of argmax predictions that agree with the ground-truth labels,
rounded to 4 decimal places, and it lies in `[0, 1]`. -/
theorem evaluateClassification_matches_spec (outputs : List (List ℚ))
    (labels : List ℕ) (hne : outputs ≠ []) :
    evaluateClassification outputs labels = specClassificationScore outputs labels ∧
    0 ≤ evaluateClassification outputs labels ∧
    evaluateClassification outputs labels ≤ 1 := by
  have hlen : (outputs.map argmaxIdx).length = outputs.length := List.length_map _ _
  refine ⟨?_, ?_, ?_⟩
  · simp only [evaluateClassification, specClassificationScore, countEq]
    rw [hlen]
  · apply round4_nonneg
    positivity
  · apply round4_le_one
    have hc : countEq labels (outputs.map argmaxIdx) ≤ outputs.length := by
      calc countEq labels (outputs.map argmaxIdx)
          ≤ (List.zip labels (outputs.map argmaxIdx)).length :=
            List.countP_le_length _
        _ ≤ (outputs.map argmaxIdx).length := by
            rw [List.length_zip]
            omega
        _ = outputs.length := hlen
    have hpos : 0 < (outputs.length : ℚ) := by
      have := List.length_pos.mpr hne
      exact_mod_cast this
    rw [hlen, div_le_one hpos]
    exact_mod_cast hc

/-- C5 witness: a 10-sample 2-class validation set with 6 argmax
predictions agreeing with the labels satisfies the hypotheses and the
conclusion of the classification-score theorem. -/
theorem evaluateClassification_matches_spec_witness :
    ([[1,0],[1,0],[1,0],[0,1],[0,1],[0,1],[0,1],[0,1],[1,0],[1,0]] : List (List ℚ)) ≠ [] ∧
    (evaluateClassification
        [[1,0],[1,0],[1,0],[0,1],[0,1],[0,1],[0,1],[0,1],[1,0],[1,0]]
        [0,0,0,0,0,1,1,1,1,1]
      = specClassificationScore
        [[1,0],[1,0],[1,0],[0,1],[0,1],[0,1],[0,1],[0,1],[1,0],[1,0]]
        [0,0,0,0,0,1,1,1,1,1] ∧
     0 ≤ evaluateClassification
        [[1,0],[1,0],[1,0],[0,1],[0,1],[0,1],[0,1],[0,1],[1,0],[1,0]]
        [0,0,0,0,0,1,1,1,1,1] ∧
     evaluateClassification
        [[1,0],[1,0],[1,0],[0,1],[0,1],[0,1],[0,1],[0,1],[1,0],[1,0]]
        [0,0,0,0,0,1,1,1,1,1] ≤ 1) :=
  ⟨by simp, evaluateClassification_matches_spec _ _ (by simp)⟩

/-- C6: for the age attribute the returned score is the mean absolute
error between per-sample sums of per-dimension-rounded predictions and
per-sample sums of the ground-truth vectors, rounded to 4 decimals. -/
theorem evaluateAge_matches_spec (outputs labels : List (List ℚ))
    (h : labels.length = outputs.length) :
    evaluateAge outputs labels = specAgeScore outputs labels := by
  simp only [evaluateAge, specAgeScore, mean_absolute_error]
  rw [zip_map_abs_sum List.sum
      (fun row => (row.map (fun x => ((roundHalfEven x : ℤ) : ℚ))).sum) labels outputs]
  rw [List.length_map, h]

/-- C6 witness: a one-sample validation set with a half-way prediction
(2.5, which `np.round` takes to 2) satisfies the hypothesis and the
conclusion of the age-score theorem. -/
theorem evaluateAge_matches_spec_witness :
    ([[ (3:ℚ) ]] : List (List ℚ)).length = ([[ (5/2 : ℚ) ]] : List (List ℚ)).length ∧
    evaluateAge [[(5/2 : ℚ)]] [[(3 : ℚ)]] = specAgeScore [[(5/2 : ℚ)]] [[(3 : ℚ)]] :=
  ⟨rfl, evaluateAge_matches_spec _ _ rfl⟩

/-- C7: for a non-recognition evaluation pass over one or more validation
batches, the reported loss is the rounded loss of the final batch alone,
while the reported score is computed from the outputs and labels
accumulated over every batch. -/
theorem evaluateAttributePass_last_batch_loss {L : Type}
    (scoreFn lossFn : List (List ℚ) → List L → ℚ)
    (batches : List (ValBatch L)) (last : ValBatch L)
    (h : batches.getLast? = some last) :
    evaluateAttributePass scoreFn lossFn batches
      = .ok (scoreFn (batches.map ValBatch.outputs).flatten
                     (batches.map ValBatch.labels).flatten,
             round4 (lossFn last.outputs last.labels)) := by
  unfold evaluateAttributePass accumulateBatches
  rw [h]

/-- C7 witness: on a two-batch validation stream whose per-batch losses
differ (1 for the first batch, 2 for the second, under a loss function
returning the batch's row count), the pass reports the final batch's loss
and a score over the accumulated three rows. -/
theorem evaluateAttributePass_last_batch_loss_witness :
    ([⟨[[1]], [0]⟩, ⟨[[2],[3]], [1,2]⟩] : List (ValBatch ℕ)).getLast?
      = some ⟨[[2],[3]], [1,2]⟩ ∧
    evaluateAttributePass (fun outs _ => (outs.length : ℚ))
        (fun outs _ => (outs.length : ℚ))
        ([⟨[[1]], [0]⟩, ⟨[[2],[3]], [1,2]⟩] : List (ValBatch ℕ))
      = .ok (3, round4 2) := by
  refine ⟨rfl, ?_⟩
  have h := evaluateAttributePass_last_batch_loss (L := ℕ)
    (fun outs _ => (outs.length : ℚ)) (fun outs _ => (outs.length : ℚ))
    [⟨[[1]], [0]⟩, ⟨[[2],[3]], [1,2]⟩] ⟨[[2],[3]], [1,2]⟩ rfl
  simpa using h

theorem trainBatch_counters (m : MaxOrMin) (ee : ℕ) (score : ℕ → ℚ)
    (s : LoopState) :
    (trainBatch m ee score s).step = s.step + 1 ∧
    (trainBatch m ee score s).optimizerUpdates = s.optimizerUpdates + 1 := by
  simp only [trainBatch]
  split <;> exact ⟨rfl, rfl⟩

theorem runEpoch_counters (m : MaxOrMin) (ee : ℕ) (score : ℕ → ℚ)
    (s : LoopState) (n : ℕ) :
    (runEpoch m ee score s n).step = s.step + n ∧
    (runEpoch m ee score s n).optimizerUpdates = s.optimizerUpdates + n := by
  induction n with
  | zero => exact ⟨rfl, rfl⟩
  | succ n ih =>
    simp only [runEpoch]
    obtain ⟨h1, h2⟩ := trainBatch_counters m ee score (runEpoch m ee score s n)
    omega

theorem foldl_runEpoch_counters (m : MaxOrMin) (ee : ℕ) (score : ℕ → ℚ) :
    ∀ (bs : List ℕ) (s : LoopState),
      (bs.foldl (runEpoch m ee score) s).step = s.step + bs.sum ∧
      (bs.foldl (runEpoch m ee score) s).optimizerUpdates
        = s.optimizerUpdates + bs.sum := by
  intro bs
  induction bs with
  | nil => intro s; simp
  | cons b bs ih =>
    intro s
    simp only [List.foldl_cons, List.sum_cons]
    obtain ⟨h1, h2⟩ := ih (runEpoch m ee score s b)
    obtain ⟨h3, h4⟩ := runEpoch_counters m ee score s b
    omega

/-- C8: each training batch increments the global step counter by exactly
1 alongside exactly one optimizer update, the counter is never reset
across epochs, and after any sequence of epochs the step counter equals
both the total number of batches processed and the total number of
optimizer update calls performed in the run. -/
theorem step_counter_tracks_optimizer_updates (m : MaxOrMin) (ee : ℕ)
    (score : ℕ → ℚ) :
    (∀ s : LoopState,
      (trainBatch m ee score s).step = s.step + 1 ∧
      (trainBatch m ee score s).optimizerUpdates = s.optimizerUpdates + 1) ∧
    (∀ batchCounts : List ℕ,
      (runEpochs m ee score batchCounts).step
        = (runEpochs m ee score batchCounts).optimizerUpdates ∧
      (runEpochs m ee score batchCounts).step = batchCounts.sum) := by
  refine ⟨trainBatch_counters m ee score, ?_⟩
  intro bs
  obtain ⟨h1, h2⟩ := foldl_runEpoch_counters m ee score bs (initLoopState m)
  unfold runEpochs
  constructor
  · rw [h1, h2]
    simp [initLoopState]
  · rw [h1]
    simp [initLoopState]

theorem chunkList_nil {α : Type} (b : ℕ) : chunkList b ([] : List α) = [] := by
  rw [chunkList]

theorem chunkList_cons {α : Type} (b : ℕ) (x : α) (rest : List α) (hb : b ≠ 0) :
    chunkList b (x :: rest)
      = (x :: rest).take b :: chunkList b ((x :: rest).drop b) := by
  rw [chunkList]
  simp [hb]

theorem chunkList_cons_zero {α : Type} (x : α) (rest : List α) :
    chunkList 0 (x :: rest) = [x :: rest] := by
  rw [chunkList]
  simp

theorem chunkList_flatten {α : Type} (b : ℕ) (xs : List α) :
    (chunkList b xs).flatten = xs := by
  suffices h : ∀ (n : ℕ) (ys : List α), ys.length = n → (chunkList b ys).flatten = ys from
    h xs.length xs rfl
  intro n
  induction n using Nat.strong_induction_on with
  | _ n ih =>
    intro ys hn
    cases ys with
    | nil => simp [chunkList_nil]
    | cons x rest =>
      by_cases hb : b = 0
      · subst hb
        simp [chunkList_cons_zero]
      · rw [chunkList_cons b x rest hb, List.flatten_cons]
        have hlt : ((x :: rest).drop b).length < n := by
          rw [List.length_drop]
          simp only [List.length_cons] at hn ⊢
          omega
        rw [ih _ hlt _ rfl, List.take_append_drop]

/-- C10: the prediction pipeline is order-preserving and lossless — the
dataset's length is the image-list row count, item `i` is the transformed
image named in row `i` (resize to 112x112, normalize with mean 0.5 and
std 0.5 per channel, no label), and the loader yields the items in file
order, keeping any final partial batch. -/
theorem predictionLoader_order_preserving {Img Tensor : Type}
    (openRGB : String → Img) (applyT : TransformSpec → Img → Tensor)
    (source : String) (rows : List String) (batch_size : ℕ) :
    imageListLen (mkImageList source rows) = rows.length ∧
    (∀ (i : ℕ) (hi : i < rows.length),
      imageListGetItem openRGB applyT (mkImageList source rows) i
        = some (applyT imageListTransform
            (openRGB (pathJoin source (rows.get ⟨i, hi⟩))))) ∧
    imageListTransform
      = { resize := (112, 112), mean := [1/2, 1/2, 1/2], std := [1/2, 1/2, 1/2] } ∧
    (predictionLoaderBatches batch_size openRGB applyT
        (mkImageList source rows)).flatten
      = rows.map (fun r => applyT imageListTransform (openRGB (pathJoin source r))) := by
  refine ⟨List.length_map _ _, ?_, rfl, ?_⟩
  · intro i hi
    unfold imageListGetItem mkImageList
    rw [List.get?_map, List.get?_eq_get hi]
    rfl
  · unfold predictionLoaderBatches mkImageList
    rw [chunkList_flatten, List.map_map]
    rfl

/-- C10 witness: on a three-row image list (with the abstract image and
tensor types instantiated to strings and the transform application to a
projection), item 0 is the transformed image of row 0. -/
theorem predictionLoader_order_preserving_witness :
    0 < (["a.jpg", "b.jpg", "c.jpg"] : List String).length ∧
    imageListGetItem (fun p : String => p)
        (fun (_ : TransformSpec) (img : String) => img)
        (mkImageList "data" ["a.jpg", "b.jpg", "c.jpg"]) 0
      = some "data/a.jpg" := by
  refine ⟨by simp, ?_⟩
  have h := (predictionLoader_order_preserving (fun p : String => p)
    (fun (_ : TransformSpec) (img : String) => img)
    "data" ["a.jpg", "b.jpg", "c.jpg"] 2).2.1 0 (by simp)
  simpa using h

end FaceAnalysis
